import Mathlib

/-!
Verification of the Eä ledger core (envelope ledger + transport fabric)
against its specification.

The development shallowly embeds the Rust sources:

* `src/ledger/core/src/lib.rs` — `AppendLog`, `CheckpointWriter`;
* `src/ledger/core/src/brainstem.rs` — `BrainstemLedger`, `ContentAddressableStore`,
  `DomainIndex`, `merkle_proof_for`, `enforce_invariants`;
* `src/ledger/transport/src/lib.rs` — `publish_event`, `InVmQueue`,
  `AttestationHandshake::verify`, `verify_with_expected`, `GrpcTransportService`.

The `ledger_spec` crate (envelope data model, canonical hashing, the
envelope validator) is referenced by the sources but is not part of the
source tree; those parts are modelled from the specification (sections 3,
4.B and 4.D) and are marked `Modelled from the spec:` below.  Keyed
BLAKE3 hashes and Ed25519 signatures are modelled symbolically: each hash
domain is a pairing-based mixing function truncated to 256 bits (the
32-byte output width of the real hashes), and a signature is valid
exactly when it equals the symbolic signing function applied to the key
and message.  32-byte hashes, public keys and 64-byte signatures are
therefore all represented as `Nat`; every concrete fact about hash values
used below is established by evaluation.
-/

namespace EaLedger

/-- Modelled from the spec: the structured JSON payload value carried by an
envelope body (`serde_json::Value` in the sources). -/
inductive Json where
  | null : Json
  | bool (b : Bool) : Json
  | num (n : Int) : Json
  | str (s : String) : Json
  | arr (xs : List Json) : Json
  | obj (fields : List (String × Json)) : Json

/-- Modelled from the spec: envelope header (§3), `prev` and `body_hash`
being 32-byte hashes modelled as `Nat`. -/
structure EnvelopeHeader where
  channel : String
  version : Nat
  prev : Option Nat
  body_hash : Nat
  timestamp : Nat
deriving DecidableEq

/-- Modelled from the spec: envelope body (§3). -/
structure EnvelopeBody where
  payload : Json
  payload_type : Option String

/-- Modelled from the spec: one entry of the envelope signature list (§3). -/
structure SignatureEntry where
  signer : Nat
  signature : Nat
deriving DecidableEq

/-- Modelled from the spec: the tagged attestation statement variants (§3, §9). -/
inductive AttestationKind where
  | Build (artifact_hash : Nat) (builder : String) : AttestationKind
  | Runtime (runtime_id : String) (policy_hash : Nat) : AttestationKind
  | Policy (bundle_hash : Nat) (expires_at : Nat) : AttestationKind
  | Custom (label : String) (payload_hash : Nat) : AttestationKind
deriving DecidableEq

/-- Modelled from the spec: a signed attestation record (§3). -/
structure Attestation where
  issuer : Nat
  statement : AttestationKind
  statement_hash : Nat
  signature : Nat
deriving DecidableEq

/-- Modelled from the spec: the atomic ledger unit (§3). -/
structure Envelope where
  header : EnvelopeHeader
  body : EnvelopeBody
  signatures : List SignatureEntry
  attestations : List Attestation

/-- Modelled from the spec: channel policy (§3). -/
structure ChannelPolicy where
  min_signers : Nat
  allowed_signers : List Nat
  require_attestations : Bool
  enforce_timestamp_ordering : Bool
deriving DecidableEq

/-- Modelled from the spec: a named channel policy entry (§3). -/
structure ChannelSpec where
  name : String
  policy : ChannelPolicy
deriving DecidableEq

/-- Modelled from the spec: the channel registry, a mapping from channel
name to policy (§4.C). -/
abbrev ChannelRegistry := List ChannelSpec

/-- Modelled from the spec: registry lookup (`ChannelRegistry::get`). -/
def registryGet (reg : ChannelRegistry) (name : String) : Option ChannelPolicy :=
  (reg.find? (fun s => s.name == name)).map (fun s => s.policy)

/-- Modelled from the spec: per-channel validation state (§3). -/
structure ChannelState where
  last_hash : Option Nat
  last_timestamp : Option Nat
deriving DecidableEq

/-- Modelled from the spec: the validation error taxonomy (§7). -/
inductive ValidationError where
  | BodyHashMismatch : ValidationError
  | AttestationInvalid : ValidationError
  | AttestationRequired : ValidationError
  | ChainBroken : ValidationError
  | TimestampRegression : ValidationError
  | InsufficientSigners : ValidationError
  | UntrustedSigner : ValidationError
  | UnknownChannel : ValidationError
deriving DecidableEq

/-- The 256-bit combiner underlying the symbolic hash model: the Cantor
style pairing of the two inputs, truncated to the 32-byte output width of
the keyed BLAKE3 hashes it stands in for. -/
def H2 (a b : Nat) : Nat :=
  Nat.pair a b % (2 ^ 256)

/-- List encoding used by the symbolic hash model. -/
def encodeList (f : α → Nat) : List α → Nat
  | [] => 0
  | a :: t => H2 (f a) (encodeList f t) + 1

/-- String encoding used by the symbolic hash model. -/
def encodeString (s : String) : Nat :=
  encodeList Char.toNat s.data

/-- Option encoding used by the symbolic hash model. -/
def encodeOption (f : α → Nat) : Option α → Nat
  | none => 0
  | some a => f a + 1

/-- Integer encoding used by the symbolic hash model. -/
def encodeInt (n : Int) : Nat :=
  H2 (if n < 0 then 1 else 0) n.natAbs

mutual

/-- Modelled from the spec: canonical serialization of a JSON payload for
hashing (§4.A), as a symbolic encoding into `Nat`. -/
def encodeJson : Json → Nat
  | .null => H2 0 0
  | .bool b => H2 1 (cond b 1 0)
  | .num n => H2 2 (encodeInt n)
  | .str s => H2 3 (encodeString s)
  | .arr xs => H2 4 (encodeJsonList xs)
  | .obj fields => H2 5 (encodeJsonFields fields)

/-- Canonical encoding of a JSON array body. -/
def encodeJsonList : List Json → Nat
  | [] => 0
  | j :: t => H2 (encodeJson j) (encodeJsonList t) + 1

/-- Canonical encoding of a JSON object field list. -/
def encodeJsonFields : List (String × Json) → Nat
  | [] => 0
  | (k, v) :: t => H2 (H2 (encodeString k) (encodeJson v)) (encodeJsonFields t) + 1

end

/-- Modelled from the spec: canonical encoding of an envelope body (§4.A). -/
def encodeBody (b : EnvelopeBody) : Nat :=
  H2 (encodeJson b.payload) (encodeOption encodeString b.payload_type)

/-- Modelled from the spec: `H_body`, the keyed body hash (§4.B), as a
symbolic domain-separated encoding. -/
def hash_body (b : EnvelopeBody) : Nat :=
  H2 1 (encodeBody b)

/-- Modelled from the spec: canonical encoding of an attestation statement (§4.A). -/
def encodeAttKind : AttestationKind → Nat
  | .Build h b => H2 0 (H2 h (encodeString b))
  | .Runtime r p => H2 1 (H2 (encodeString r) p)
  | .Policy h e => H2 2 (H2 h e)
  | .Custom l p => H2 3 (H2 (encodeString l) p)

/-- Modelled from the spec: `H_att`, the keyed attestation-statement hash
(§4.B), as a symbolic domain-separated encoding. -/
def hash_attestation_statement (k : AttestationKind) : Nat :=
  H2 2 (encodeAttKind k)

/-- Modelled from the spec: canonical encoding of a full attestation record. -/
def encodeAttestation (a : Attestation) : Nat :=
  H2 a.issuer (H2 (encodeAttKind a.statement) (H2 a.statement_hash a.signature))

/-- Modelled from the spec: canonical encoding of an envelope header (§4.A);
field order fixed, `prev` included. -/
def encodeHeader (h : EnvelopeHeader) : Nat :=
  H2 (encodeString h.channel)
    (H2 h.version
      (H2 (encodeOption id h.prev)
        (H2 h.body_hash h.timestamp)))

/-- Modelled from the spec: `envelope_hash` (§4.B), computed over
canonical(header) then canonical(body) then canonical(attestations);
signatures excluded. -/
def envelope_hash (env : Envelope) : Nat :=
  H2 3
    (H2 (encodeHeader env.header)
      (H2 (encodeBody env.body) (encodeList encodeAttestation env.attestations)))

/-- Modelled from the spec: symbolic Ed25519 signing oracle; the key pair is
identified with the public key. -/
def mkSig (pk msg : Nat) : Nat :=
  H2 4 (H2 pk msg)

/-- Modelled from the spec: symbolic Ed25519 verification — a signature is
valid exactly when it is the symbolic signature of the message by the key. -/
def verifySig (pk msg sig : Nat) : Bool :=
  sig == mkSig pk msg

/-- Modelled from the spec: `H_merkle`, the keyed Merkle node hash (§4.B),
as a symbolic domain-separated pairing. -/
def merkleH (l r : Nat) : Nat :=
  H2 5 (H2 l r)

/-- Modelled from the spec: `H_payload` over the canonical payload bytes
(§4.B), used for CAS keys. -/
def payloadHash (bytes : String) : Nat :=
  H2 6 (encodeString bytes)

mutual

/-- Modelled from the spec: compact serialization of a payload to bytes
(`serde_json::to_vec` in the sources), modelled at the level of strings. -/
def Json.render : Json → String
  | .null => "null"
  | .bool b => cond b ("true") ("false")
  | .num n => toString n
  | .str s => "\"" ++ s ++ "\""
  | .arr xs => "[" ++ Json.renderArr xs ++ "]"
  | .obj fields => "\x7b" ++ Json.renderObj fields ++ "\x7d"

/-- Comma-separated rendering of array elements. -/
def Json.renderArr : List Json → String
  | [] => ""
  | [j] => Json.render j
  | j :: t => Json.render j ++ "," ++ Json.renderArr t

/-- Comma-separated rendering of object fields. -/
def Json.renderObj : List (String × Json) → String
  | [] => ""
  | [(k, v)] => "\"" ++ k ++ "\":" ++ Json.render v
  | (k, v) :: t => "\"" ++ k ++ "\":" ++ Json.render v ++ "," ++ Json.renderObj t

end

/-- Modelled from the spec: the envelope validator (§4.D), performing the
checks in the listed order with the §4.D tie-breaks (zero signatures never
pass; signers are deduplicated by key before counting). -/
def validate_envelope (env : Envelope) (reg : ChannelRegistry) (st : ChannelState) :
    Except ValidationError ChannelState :=
  if hash_body env.body ≠ env.header.body_hash then
    .error .BodyHashMismatch
  else if env.attestations.any (fun a =>
      (hash_attestation_statement a.statement != a.statement_hash) ||
        !(verifySig a.issuer a.statement_hash a.signature)) then
    .error .AttestationInvalid
  else
    match registryGet reg env.header.channel with
    | none => .error .UnknownChannel
    | some policy =>
      if env.header.prev ≠ st.last_hash then
        .error .ChainBroken
      else if policy.enforce_timestamp_ordering &&
          (match st.last_timestamp with
           | some t0 => decide (env.header.timestamp < t0)
           | none => false) then
        .error .TimestampRegression
      else
        let h := envelope_hash env
        if env.signatures.any (fun s => !(policy.allowed_signers.contains s.signer)) then
          .error .UntrustedSigner
        else
          let validSigners :=
            ((env.signatures.filter (fun s => verifySig s.signer h s.signature)).map
              (fun s => s.signer)).dedup
          if env.signatures.isEmpty || validSigners.length < policy.min_signers then
            .error .InsufficientSigners
          else if policy.require_attestations && env.attestations.isEmpty then
            .error .AttestationRequired
          else
            .ok ⟨some h, some env.header.timestamp⟩

/-- The `prev` fill performed by `AppendLog::append` (core `lib.rs`): when the
incoming header carries no `prev`, it is filled with the hash of the current
tail envelope. -/
def fillPrev (entries : List Envelope) (env : Envelope) : Envelope :=
  if env.header.prev.isNone then
    { env with header := { env.header with prev := entries.getLast?.map envelope_hash } }
  else env

/-- `AppendLog::append` (core `lib.rs`): read the tail, fill `prev` if absent,
build the prior channel state, validate, and only then push.  The returned
list is the entry vector after the call; on error it is untouched. -/
def AppendLog.append (entries : List Envelope) (env : Envelope) (reg : ChannelRegistry) :
    Except ValidationError Unit × List Envelope :=
  let env' := fillPrev entries env
  let prev_state : ChannelState :=
    ⟨entries.getLast?.map envelope_hash, entries.getLast?.map (fun e => e.header.timestamp)⟩
  match validate_envelope env' reg prev_state with
  | .error e => (.error e, entries)
  | .ok _ => (.ok (), entries ++ [env'])

/-- One Merkle level of `AppendLog::merkle_root` (core `lib.rs`): the
`chunks(2)` pass hashing consecutive pairs and duplicating a trailing odd
node. -/
def levelUp (H : α → α → α) : List α → List α
  | [] => []
  | [a] => [H a a]
  | a :: b :: t => H a b :: levelUp H t

/-- The `while leaves.len() > 1` loop of `AppendLog::merkle_root`, with
explicit fuel (the loop halves the level length, so fuel equal to the
initial leaf count always suffices). -/
def rootSteps (H : α → α → α) : Nat → List α → List α
  | 0, ls => ls
  | n + 1, ls => if ls.length > 1 then rootSteps H n (levelUp H ls) else ls

/-- `AppendLog::merkle_root` (core `lib.rs`): `None` on an empty log,
otherwise the single node remaining after repeated `levelUp` passes over
the envelope-hash leaves. -/
def AppendLog.merkle_root (entries : List Envelope) : Option Nat :=
  if entries.isEmpty then none
  else
    let leaves := entries.map envelope_hash
    (rootSteps merkleH leaves.length leaves).head?

/-- The sibling-collecting loop of `merkle_proof_for` (`brainstem.rs`), with
explicit fuel; at each level the sibling of `idx` is emitted (duplicating
the node itself when it has no right neighbour) and `idx` moves to the
parent level. -/
def proofSteps (H : α → α → α) (dflt : α) : Nat → List α → Nat → List α
  | 0, _, _ => []
  | n + 1, ls, idx =>
    if ls.length > 1 then
      (if idx % 2 == 0 then
        (if idx + 1 < ls.length then ls.getD (idx + 1) dflt else ls.getD idx dflt)
       else ls.getD (idx - 1) dflt)
        :: proofSteps H dflt n (levelUp H ls) (idx / 2)
    else []

/-- `merkle_proof_for` (`brainstem.rs`): the sibling path for the leaf at
`index`, empty for an empty log. -/
def merkle_proof_for (entries : List Envelope) (index : Nat) : List Nat :=
  let leaves := entries.map envelope_hash
  if leaves.isEmpty then []
  else proofSteps merkleH 0 leaves.length leaves index

/-- The spec's verifier fold (§4.E): at step `k`, `acc = H(acc, sib)` when
bit `k` of the index is 0 and `H(sib, acc)` otherwise. -/
def foldProof (H : α → α → α) : α → List α → Nat → α
  | leaf, [], _ => leaf
  | leaf, sib :: rest, index =>
    foldProof H (if index % 2 == 0 then H leaf sib else H sib leaf) rest (index / 2)

/-- The spec's verifier (§4.E): fold the proof into the leaf and accept
exactly when the result equals the root. -/
def verifyInclusion (leaf : Nat) (proof : List Nat) (index root : Nat) : Bool :=
  foldProof merkleH leaf proof index == root

/-- One pairing pass as worded by the spec (§4.E): pair consecutive leaves
`(L, R) → H(L, R)`, the last node of an odd-length level being paired with
itself. -/
def specPairUp (H : α → α → α) : List α → List α
  | a :: b :: t => H a b :: specPairUp H t
  | [a] => [H a a]
  | [] => []

/-- Fuelled iteration of `specPairUp` until one node remains (§4.E). -/
def specRootGo (H : α → α → α) : Nat → List α → Option α
  | _, [] => none
  | _, [a] => some a
  | 0, _ :: _ :: _ => none
  | n + 1, a :: b :: t => specRootGo H n (specPairUp H (a :: b :: t))

/-- The Merkle root as worded by the spec (§4.E): iterate the pairing pass
until one node remains; that node is the root. -/
def specRoot (H : α → α → α) (ls : List α) : Option α :=
  specRootGo H ls.length ls

/-- `Checkpoint` (core `lib.rs`). -/
structure Checkpoint where
  length : Nat
  root : Nat
deriving DecidableEq

/-- `CheckpointWriter` (core `lib.rs`): remembers the log length at the last
emitted checkpoint. -/
structure CheckpointWriter where
  last_len : Nat
deriving DecidableEq

/-- `CheckpointWriter::maybe_checkpoint` (core `lib.rs`): when the log has
advanced by at least `interval`, emit a checkpoint and record the length;
the `?` on `merkle_root` returns `None` early without updating `last_len`. -/
def CheckpointWriter.maybe_checkpoint (w : CheckpointWriter) (log : List Envelope)
    (interval : Nat) : Option Checkpoint × CheckpointWriter :=
  let len := log.length
  if len ≥ w.last_len + interval then
    match AppendLog.merkle_root log with
    | none => (none, w)
    | some root => (some ⟨len, root⟩, ⟨len⟩)
  else (none, w)

/-- `BrainstemError` (`brainstem.rs`). -/
inductive BrainstemError where
  | Validation (e : ValidationError) : BrainstemError
  | InvariantViolation (msg : String) : BrainstemError
  | Storage (msg : String) : BrainstemError
deriving DecidableEq

/-- `Alert` (`brainstem.rs`). -/
structure Alert where
  message : String
  error : Option ValidationError
deriving DecidableEq

/-- `Receipt` (`brainstem.rs`). -/
structure Receipt where
  index : Nat
  envelope_hash : Nat
  merkle_root : Nat
  merkle_proof : List Nat
deriving DecidableEq

/-- Modelled from the spec: display strings of the `ledger_spec` validation
errors (their `thiserror` renderings are outside the source tree); only
used inside alert messages, which no claim inspects. -/
def ValidationError.message : ValidationError → String
  | .BodyHashMismatch => "body hash mismatch"
  | .AttestationInvalid => "attestation invalid"
  | .AttestationRequired => "attestation required"
  | .ChainBroken => "chain broken"
  | .TimestampRegression => "timestamp regression"
  | .InsufficientSigners => "insufficient signers"
  | .UntrustedSigner => "untrusted signer"
  | .UnknownChannel => "unknown channel"

/-- `ContentAddressableStore` (`brainstem.rs`): the configured byte ceiling
together with the set of digests whose files exist in the store directory. -/
structure ContentAddressableStore where
  max_bytes : Nat
  files : List Nat
deriving DecidableEq

/-- The oversize message produced by `ContentAddressableStore::put`. -/
def oversizeMsg (got limit : Nat) : String :=
  "payload exceeds limit: " ++ toString got ++ " > " ++ toString limit

/-- `ContentAddressableStore::put` (`brainstem.rs`): serialize, enforce the
byte ceiling, hash, and write the file only when absent.  The returned
`Bool` records whether a file write occurred. -/
def ContentAddressableStore.put (c : ContentAddressableStore) (payload : Json) :
    Except BrainstemError Nat × ContentAddressableStore × Bool :=
  let bytes := Json.render payload
  if bytes.length > c.max_bytes then
    (.error (.InvariantViolation (oversizeMsg bytes.length c.max_bytes)), c, false)
  else
    let h := payloadHash bytes
    if c.files.contains h then (.ok h, c, false)
    else (.ok h, { c with files := c.files ++ [h] }, true)

/-- Iterated `ContentAddressableStore::put` on a fixed payload: the list of
results, the final store state, and the number of file writes performed. -/
def ContentAddressableStore.putIter (c : ContentAddressableStore) (payload : Json) :
    Nat → List (Except BrainstemError Nat) × ContentAddressableStore × Nat
  | 0 => ([], c, 0)
  | n + 1 =>
    let r := ContentAddressableStore.put c payload
    let rest := ContentAddressableStore.putIter r.2.1 payload n
    (r.1 :: rest.1, rest.2.1, (cond r.2.2 1 0) + rest.2.2)

/-- `ContentAddressableStore::get` (`brainstem.rs`). -/
def ContentAddressableStore.get (c : ContentAddressableStore) (h : Nat) : Bool :=
  c.files.contains h

/-- Association-list lookup backing the `DomainIndex` map accessors; absent
keys yield the empty offset list (`unwrap_or_default`). -/
def alGet : List (String × List Nat) → String → List Nat
  | [], _ => []
  | kv :: t, k => if kv.1 == k then kv.2 else alGet t k

/-- Association-list update backing `entry(..).or_default().push(idx)`. -/
def alPush (m : List (String × List Nat)) (k : String) (i : Nat) :
    List (String × List Nat) :=
  match m with
  | [] => [(k, [i])]
  | kv :: t => if kv.1 == k then (kv.1, kv.2 ++ [i]) :: t else kv :: alPush t k i

/-- `DomainIndex` (`brainstem.rs`): offsets per channel and per payload
`domain` value (the `BTreeMap`s are modelled as association lists; lookup
order is immaterial through `alGet`). -/
structure DomainIndex where
  by_channel : List (String × List Nat)
  by_domain : List (String × List Nat)

/-- The string-typed `domain` field of an envelope payload, as extracted by
`DomainIndex::index_envelope` (`payload.get("domain").and_then(as_str)`). -/
def payloadDomain (env : Envelope) : Option String :=
  match env.body.payload with
  | .obj fields =>
    match fields.find? (fun kv => kv.1 == "domain") with
    | some (_, .str s) => some s
    | _ => none
  | _ => none

/-- `DomainIndex::index_envelope` (`brainstem.rs`). -/
def DomainIndex.index_envelope (idx : DomainIndex) (i : Nat) (env : Envelope) : DomainIndex :=
  { by_channel := alPush idx.by_channel env.header.channel i
    by_domain :=
      match payloadDomain env with
      | some d => alPush idx.by_domain d i
      | none => idx.by_domain }

/-- `DomainIndex::offsets_for_channel` (`brainstem.rs`). -/
def DomainIndex.offsets_for_channel (idx : DomainIndex) (channel : String) : List Nat :=
  alGet idx.by_channel channel

/-- `DomainIndex::offsets_for_domain` (`brainstem.rs`). -/
def DomainIndex.offsets_for_domain (idx : DomainIndex) (domain : String) : List Nat :=
  alGet idx.by_domain domain

/-- `enforce_invariants` (`brainstem.rs`): reject object payloads carrying
the reserved keys. -/
def enforce_invariants (payload : Json) : Except BrainstemError Unit :=
  match payload with
  | .obj fields =>
    if fields.any (fun kv => kv.1 == "dynamic_code") then
      .error (.InvariantViolation ("dynamic code payloads are not permitted"))
    else if fields.any (fun kv => kv.1 == "shared_memory") then
      .error (.InvariantViolation ("shared memory references are not permitted"))
    else .ok ()
  | _ => .ok ()

/-- `BrainstemLedger` (`brainstem.rs`): the single-writer orchestrator
state — log, registry, CAS, checkpoint writer, alert list, domain index. -/
structure BrainstemLedger where
  log : List Envelope
  registry : ChannelRegistry
  store : ContentAddressableStore
  checkpoint_writer : CheckpointWriter
  alerts : List Alert
  index : DomainIndex

/-- `BrainstemLedger::validation_error` (`brainstem.rs`): push a structured
alert and surface the validation error. -/
def BrainstemLedger.validation_error (b : BrainstemLedger) (e : ValidationError) :
    Except BrainstemError Receipt × BrainstemLedger :=
  (.error (.Validation e),
    { b with alerts := b.alerts ++ [⟨"validation failure: " ++ e.message, some e⟩] })

/-- `BrainstemLedger::append` (`brainstem.rs`), step for step: invariant
check; body-hash self-check (alerting); attestation self-check (alerting);
`env_hash` computed **before** the `prev` fill; tail read; `prev` fill;
validation (surfaced without an alert); CAS put; log append; index update;
root, proof and checkpoint; receipt. -/
def BrainstemLedger.append (b : BrainstemLedger) (env : Envelope) :
    Except BrainstemError Receipt × BrainstemLedger :=
  match enforce_invariants env.body.payload with
  | .error e => (.error e, b)
  | .ok _ =>
    if hash_body env.body ≠ env.header.body_hash then
      b.validation_error .BodyHashMismatch
    else if env.attestations.any (fun a =>
        hash_attestation_statement a.statement != a.statement_hash) then
      b.validation_error .AttestationInvalid
    else
      let env_hash := envelope_hash env
      let last := b.log.getLast?
      let prev_state : ChannelState := ⟨last.map envelope_hash, last.map (fun e => e.header.timestamp)⟩
      let env' := fillPrev b.log env
      match validate_envelope env' b.registry prev_state with
      | .error e => (.error (.Validation e), b)
      | .ok _ =>
        match ContentAddressableStore.put b.store env'.body.payload with
        | (.error e, store', _) => (.error e, { b with store := store' })
        | (.ok _, store', _) =>
          match AppendLog.append b.log env' b.registry with
          | (.error e, _) => (.error (.Validation e), { b with store := store' })
          | (.ok _, newlog) =>
            let index := newlog.length - 1
            let idx' := b.index.index_envelope index env'
            let root := (AppendLog.merkle_root newlog).getD 0
            let proof := merkle_proof_for newlog index
            let cp := b.checkpoint_writer.maybe_checkpoint newlog 1
            (.ok ⟨index, env_hash, root, proof⟩,
              { b with
                  log := newlog
                  store := store'
                  checkpoint_writer := cp.2
                  index := idx' })

/-- Folding `BrainstemLedger::append` over a list of envelopes, keeping the
resulting orchestrator state. -/
def BrainstemLedger.appendAll (b : BrainstemLedger) (envs : List Envelope) : BrainstemLedger :=
  envs.foldl (fun s e => (BrainstemLedger.append s e).2) b

/-- The ascending offsets, starting at `i`, of the envelopes satisfying `p`
— the spec-side characterisation of the domain-index contents (§4.I). -/
def offsetsSpec (p : Envelope → Bool) : List Envelope → Nat → List Nat
  | [], _ => []
  | e :: t, i => (if p e then [i] else []) ++ offsetsSpec p t (i + 1)

/-- The index-correctness invariant of §4.I: both maps list exactly the
ascending log offsets of the envelopes selected by channel name or by the
string-typed payload `domain` field. -/
def IndexCorrect (b : BrainstemLedger) : Prop :=
  (∀ c, b.index.offsets_for_channel c =
    offsetsSpec (fun e => decide (e.header.channel = c)) b.log 0) ∧
  (∀ d, b.index.offsets_for_domain d =
    offsetsSpec (fun e => decide (payloadDomain e = some d)) b.log 0)

/-- Transport-level errors of the in-VM queue (`transport/src/lib.rs`
reports them as `anyhow` strings; claims only distinguish the kinds). -/
inductive TransportError where
  | Backpressure : TransportError
  | Validation (e : ValidationError) : TransportError
deriving DecidableEq

/-- `publish_event` (`transport/src/lib.rs`): refuse when the broadcast
queue has reached the configured depth, otherwise enqueue.  `queueLen`
models `tx.len()` under a subscriber that never drains. -/
def publishEvent (queueLen depth : Nat) : Except Unit Nat :=
  if queueLen ≥ depth then .error () else .ok (queueLen + 1)

/-- `InVmQueue` (`transport/src/lib.rs`): an in-process log plus a bounded
broadcast channel, observed with a single never-draining subscriber. -/
structure InVmQueue where
  log : List Envelope
  registry : ChannelRegistry
  queueLen : Nat
  queue_depth : Nat

/-- `InVmQueue::append` (`transport/src/lib.rs`): the log append runs and
commits first; only then is the envelope offered to the broadcast channel,
where backpressure can fail the call. -/
def InVmQueue.append (q : InVmQueue) (env : Envelope) :
    Except TransportError Unit × InVmQueue :=
  match AppendLog.append q.log env q.registry with
  | (.error e, _) => (.error (.Validation e), q)
  | (.ok _, newlog) =>
    match publishEvent q.queueLen q.queue_depth with
    | .error _ => (.error .Backpressure, { q with log := newlog })
    | .ok n => (.ok (), { q with log := newlog, queueLen := n })

/-- `AttestationHandshake` (`transport/src/lib.rs`). -/
structure AttestationHandshake where
  nonce : String
  expected_runtime_id : Option String
  expected_statement_hash : Option Nat
  presented : Option Attestation
deriving DecidableEq

/-- `AttestationHandshake::verify` (`transport/src/lib.rs`): when evidence
is presented, check the statement hash against the expectation and, for a
`Runtime` statement, the runtime id. -/
def AttestationHandshake.verify (h : AttestationHandshake) : Except String Unit :=
  match h.presented with
  | none => .ok ()
  | some att =>
    let computed := hash_attestation_statement att.statement
    if (match h.expected_statement_hash with
        | some expected => decide (expected ≠ computed)
        | none => false) then
      .error ("attestation statement hash mismatch")
    else
      match h.expected_runtime_id, att.statement with
      | some expected_runtime, .Runtime runtime_id _ =>
        if runtime_id ≠ expected_runtime then .error ("attestation runtime id mismatch")
        else .ok ()
      | _, _ => .ok ()

/-- `verify_with_expected` (`transport/src/lib.rs`): build the effective
handshake from the server template (a provided handshake only contributes
its `presented` evidence), require evidence whenever an expectation is
set, then run `AttestationHandshake::verify`. -/
def verify_with_expected (expected provided : Option AttestationHandshake) :
    Except String Unit :=
  let handshake :=
    match expected with
    | some template =>
      match provided with
      | some p => { template with presented := p.presented }
      | none => template
    | none => provided.getD ⟨"", none, none, none⟩
  if handshake.presented.isNone &&
      (handshake.expected_runtime_id.isSome || handshake.expected_statement_hash.isSome) then
    .error ("attestation required but not provided")
  else handshake.verify

/-- The gRPC status kinds used by `GrpcTransportService` (`transport/src/lib.rs`). -/
inductive GrpcStatus where
  | PermissionDenied (msg : String) : GrpcStatus
  | InvalidArgument (msg : String) : GrpcStatus
  | FailedPrecondition : GrpcStatus
deriving DecidableEq

/-- `GrpcTransportService` (`transport/src/lib.rs`): shared log, registry,
server-side expected handshake, and broadcast queue. -/
structure GrpcTransportService where
  log : List Envelope
  registry : ChannelRegistry
  attestation : Option AttestationHandshake
  queueLen : Nat
  queue_depth : Nat

/-- `GrpcTransportService::append` (`transport/src/lib.rs`): verify the
handshake against the expected template (`PermissionDenied` on failure,
before any log access), then append to the log (`InvalidArgument` on
validation failure) and publish (`FailedPrecondition` on backpressure). -/
def GrpcTransportService.append (s : GrpcTransportService)
    (handshake : Option AttestationHandshake) (env : Envelope) :
    Except GrpcStatus Unit × GrpcTransportService :=
  match verify_with_expected s.attestation handshake with
  | .error e => (.error (.PermissionDenied e), s)
  | .ok _ =>
    match AppendLog.append s.log env s.registry with
    | (.error e, _) => (.error (.InvalidArgument e.message), s)
    | (.ok _, newlog) =>
      match publishEvent s.queueLen s.queue_depth with
      | .error _ => (.error .FailedPrecondition, { s with log := newlog })
      | .ok n => (.ok (), { s with log := newlog, queueLen := n })

/-- The attestation evidence the server-side verification actually
considers for a request: the client's when a client handshake accompanies
the request, the template's own `presented` field otherwise. -/
def presentedOf (template : AttestationHandshake) (provided : Option AttestationHandshake) :
    Option Attestation :=
  match provided with
  | some p => p.presented
  | none => template.presented

/-- Handshake-verification failure as worded by the claim and §6: no
evidence while an expectation is set; a statement-hash mismatch; or a
`Runtime` statement whose runtime id differs from the expectation. -/
def handshakeFails (expectedRid : Option String) (expectedHash : Option Nat)
    (presented : Option Attestation) : Prop :=
  (presented = none ∧ (expectedRid ≠ none ∨ expectedHash ≠ none)) ∨
  (∃ att h, presented = some att ∧ expectedHash = some h ∧
    hash_attestation_statement att.statement ≠ h) ∨
  (∃ att rid ph r, presented = some att ∧ att.statement = .Runtime rid ph ∧
    expectedRid = some r ∧ rid ≠ r)

/-! Concrete scenario inputs: a registry with a single channel `c` requiring
one signature from the key `7`, with timestamp ordering enforced, and a
handful of signed envelopes over it. -/

/-- Registry with one channel `c`: one signer from key `7`, timestamp
ordering on, attestations not required. -/
def regC : ChannelRegistry := [⟨"c", ⟨1, [7], false, true⟩⟩]

/-- Body of the first scenario envelope. -/
def body1 : EnvelopeBody := ⟨Json.obj [("n", Json.num 1)], some ("t")⟩

/-- First scenario envelope before signing: channel genesis, `prev = None`. -/
def e1pre : Envelope := ⟨⟨"c", 1, none, hash_body body1, 1⟩, body1, [], []⟩

/-- First scenario envelope, signed by key `7` (the signature list does not
enter the envelope hash). -/
def e1 : Envelope := { e1pre with signatures := [⟨7, mkSig 7 (envelope_hash e1pre)⟩] }

/-- Body of the second scenario envelope. -/
def body2 : EnvelopeBody := ⟨Json.obj [("n", Json.num 2)], some ("t")⟩

/-- Second scenario envelope before signing, submitted with `prev = None`
so that the orchestrator fills it. -/
def e2pre : Envelope := ⟨⟨"c", 1, none, hash_body body2, 2⟩, body2, [], []⟩

/-- The second envelope as it will stand in the log: `prev` filled with the
hash of the first envelope. -/
def e2filledPre : Envelope :=
  { e2pre with header := { e2pre.header with prev := some (envelope_hash e1) } }

/-- Second scenario envelope, submitted with `prev = None` but signed over
the hash it will have once `prev` is filled, so that validation passes. -/
def e2 : Envelope :=
  { e2pre with signatures := [⟨7, mkSig 7 (envelope_hash e2filledPre)⟩] }

/-- The second envelope exactly as appended: `prev` filled, signature kept. -/
def e2f : Envelope :=
  { e2 with header := { e2.header with prev := some (envelope_hash e1) } }

/-- Fresh orchestrator over `regC` with an empty log, an empty store with a
1 MB ceiling, and empty alerts and index. -/
def b0ex : BrainstemLedger :=
  ⟨[], regC, ⟨1000000, []⟩, ⟨0⟩, [], ⟨[], []⟩⟩

/-- Orchestrator state after appending the first scenario envelope. -/
def b1ex : BrainstemLedger := (BrainstemLedger.append b0ex e1).2

/-- The receipt returned for the second scenario envelope. -/
def r2ex : Receipt :=
  ((BrainstemLedger.append b1ex e2).1).toOption.getD ⟨0, 0, 0, []⟩

/-- Body carrying the reserved `dynamic_code` key. -/
def bodyDyn : EnvelopeBody := ⟨Json.obj [("dynamic_code", Json.bool true)], none⟩

/-- Envelope whose payload carries the reserved `dynamic_code` key. -/
def envDyn : Envelope := ⟨⟨"c", 1, none, hash_body bodyDyn, 1⟩, bodyDyn, [], []⟩

/-- A chain-breaking envelope: the first scenario envelope with a bogus
`prev` hash. -/
def envCB : Envelope := { e1 with header := { e1.header with prev := some 999 } }

/-- In-VM queue holding the first envelope, with broadcast depth 1 already
saturated by a never-draining subscriber. -/
def q1ex : InVmQueue := ⟨[e1], regC, 1, 1⟩

/-- Server-side expected handshake template: a `Runtime` attestation for
`enclave-A` is expected, no evidence carried by the template itself. -/
def tEx : AttestationHandshake := ⟨"srv", some ("enclave-A"), none, none⟩

/-- A client handshake presenting no evidence. -/
def pEx : AttestationHandshake := ⟨"cli", none, none, none⟩

/-- A second client handshake equal to `pEx` except for the client-chosen
fields (nonce and client-side expectations). -/
def pEx2 : AttestationHandshake := ⟨"cli2", some ("other"), some 42, none⟩

/-- gRPC service over `regC` configured with the expected template `tEx`. -/
def sEx : GrpcTransportService := ⟨[], regC, some tEx, 0, 8⟩

/-- Store used by the CAS witness. -/
def casEx : ContentAddressableStore := ⟨100, []⟩

/-- Payload used by the CAS witness. -/
def pJson : Json := Json.obj [("n", Json.num 1)]

/-- Envelope with domain `alpha` at offset 0 of the domain-index scenario. -/
def eA : Envelope :=
  let body : EnvelopeBody := ⟨Json.obj [("n", Json.num 1), ("domain", Json.str ("alpha"))], none⟩
  let base : Envelope := ⟨⟨"c", 1, none, hash_body body, 1⟩, body, [], []⟩
  { base with signatures := [⟨7, mkSig 7 (envelope_hash base)⟩] }

/-- Envelope with domain `beta` at offset 1 of the domain-index scenario. -/
def eB : Envelope :=
  let body : EnvelopeBody := ⟨Json.obj [("n", Json.num 2), ("domain", Json.str ("beta"))], none⟩
  let base : Envelope := ⟨⟨"c", 1, some (envelope_hash eA), hash_body body, 2⟩, body, [], []⟩
  { base with signatures := [⟨7, mkSig 7 (envelope_hash base)⟩] }

/-- Envelope with domain `alpha` at offset 2 of the domain-index scenario. -/
def eC : Envelope :=
  let body : EnvelopeBody := ⟨Json.obj [("n", Json.num 3), ("domain", Json.str ("alpha"))], none⟩
  let base : Envelope := ⟨⟨"c", 1, some (envelope_hash eB), hash_body body, 3⟩, body, [], []⟩
  { base with signatures := [⟨7, mkSig 7 (envelope_hash base)⟩] }

/-! General lemmas about the Merkle level pass and root loop. -/

theorem levelUp_length (H : α → α → α) : ∀ ls : List α, (levelUp H ls).length = (ls.length + 1) / 2
  | [] => by simp [levelUp]
  | [_] => by simp [levelUp]
  | _ :: _ :: t => by
    simp only [levelUp, List.length_cons, levelUp_length H t]
    omega

theorem levelUp_ne_nil (H : α → α → α) : ∀ ls : List α, ls ≠ [] → levelUp H ls ≠ []
  | [], h => absurd rfl h
  | [_], _ => by simp [levelUp]
  | _ :: _ :: _, _ => by simp [levelUp]

theorem single_of_len_le_one : ∀ ls : List α, ls ≠ [] → ls.length ≤ 1 → ∃ r, ls = [r]
  | [], h, _ => absurd rfl h
  | [a], _, _ => ⟨a, rfl⟩
  | _ :: _ :: t, _, hlen => by simp only [List.length_cons] at hlen; omega

theorem rootSteps_single (H : α → α → α) :
    ∀ (n : Nat) (ls : List α), ls ≠ [] → ls.length ≤ n + 1 → ∃ r, rootSteps H n ls = [r]
  | 0, ls, h, hlen => by
    obtain ⟨r, hr⟩ := single_of_len_le_one ls h hlen
    exact ⟨r, by rw [rootSteps, hr]⟩
  | n + 1, ls, h, hlen => by
    rw [rootSteps]
    by_cases hgt : ls.length > 1
    · rw [if_pos hgt]
      exact rootSteps_single H n _ (levelUp_ne_nil H ls h) (by rw [levelUp_length]; omega)
    · rw [if_neg hgt]
      exact single_of_len_le_one ls h (by omega)

theorem specPairUp_eq_levelUp (H : α → α → α) : ∀ ls : List α, specPairUp H ls = levelUp H ls
  | [] => rfl
  | [_] => rfl
  | a :: b :: t => by rw [specPairUp, levelUp, specPairUp_eq_levelUp H t]

theorem specRootGo_eq_rootSteps (H : α → α → α) :
    ∀ (n : Nat) (ls : List α), ls.length ≤ n + 1 → specRootGo H n ls = (rootSteps H n ls).head?
  | n, [], _ => by cases n <;> rfl
  | n, [_], _ => by cases n <;> rfl
  | 0, _ :: _ :: t, hlen => by simp only [List.length_cons] at hlen; omega
  | n + 1, a :: b :: t, hlen => by
    rw [specRootGo, specPairUp_eq_levelUp, rootSteps,
      if_pos (by simp only [List.length_cons]; omega)]
    refine specRootGo_eq_rootSteps H n _ ?_
    rw [levelUp_length]
    simp only [List.length_cons] at hlen ⊢
    omega

/-- For every non-empty log the source's `merkle_root` yields a value. -/
theorem merkle_root_of_ne_nil (entries : List Envelope) (h : entries ≠ []) :
    ∃ r, AppendLog.merkle_root entries = some r := by
  have hne : entries.map envelope_hash ≠ [] := by simpa using h
  obtain ⟨r, hr⟩ :=
    rootSteps_single merkleH (entries.map envelope_hash).length _ hne (Nat.le_succ _)
  refine ⟨r, ?_⟩
  rw [AppendLog.merkle_root, if_neg (by simpa [List.isEmpty_iff] using h)]
  rw [List.length_map] at hr
  simp [hr]

/-- C6: `AppendLog::merkle_root` returns `None` iff the log is empty;
otherwise it returns the root obtained by repeatedly pairing consecutive
envelope-hash leaves with `H_merkle`, the last node of an odd-length level
being paired with itself, until one node remains (`specRoot`); for a log of
length 1 the root is the leaf hash itself. -/
theorem merkle_root_matches_spec (entries : List Envelope) :
    AppendLog.merkle_root entries = specRoot merkleH (entries.map envelope_hash) ∧
    (AppendLog.merkle_root entries = none ↔ entries = []) ∧
    (∀ e : Envelope, AppendLog.merkle_root [e] = some (envelope_hash e)) := by
  refine ⟨?_, ⟨?_, ?_⟩, fun e => rfl⟩
  · cases entries with
    | nil => rfl
    | cons e t =>
      rw [AppendLog.merkle_root, if_neg (by simp), specRoot,
        specRootGo_eq_rootSteps merkleH _ _ (Nat.le_succ _)]
  · intro hnone
    by_contra hne
    obtain ⟨r, hr⟩ := merkle_root_of_ne_nil entries hne
    rw [hr] at hnone
    exact Option.noConfusion hnone
  · intro h
    subst h
    rfl

/-- C6 witness: for the concrete one-envelope log the root is the leaf. -/
theorem merkle_root_matches_spec_witness :
    AppendLog.merkle_root [e1] = some (envelope_hash e1) :=
  (merkle_root_matches_spec [e1]).2.2 e1

/-- C7 counterexample: with `last_len = 0`, an empty log and `interval = 0`
the claim's trigger condition `log.len() ≥ last_len + interval` holds, yet
`maybe_checkpoint` returns `None` (the `?` on the absent Merkle root)
instead of the claimed `Some` checkpoint. -/
theorem maybe_checkpoint_claim_fails_on_empty_log :
    ([] : List Envelope).length ≥ 0 + 0 ∧
    CheckpointWriter.maybe_checkpoint ⟨0⟩ ([] : List Envelope) 0 = (none, ⟨0⟩) :=
  ⟨Nat.le_refl 0, rfl⟩

/-- C7 (amended): `maybe_checkpoint` returns
`Some(Checkpoint{length, root})` and sets `last_len` to the log length
exactly when `log.len() ≥ last_len + interval` **and the log is
non-empty**; otherwise it returns `None` and leaves `last_len` unchanged
(in particular for `interval = 0` on an empty log). -/
theorem maybe_checkpoint_condition (w : CheckpointWriter) (log : List Envelope) (interval : Nat) :
    (log.length ≥ w.last_len + interval → log ≠ [] →
      ∃ root, AppendLog.merkle_root log = some root ∧
        w.maybe_checkpoint log interval = (some ⟨log.length, root⟩, ⟨log.length⟩)) ∧
    (¬ (log.length ≥ w.last_len + interval ∧ log ≠ []) →
      w.maybe_checkpoint log interval = (none, w)) := by
  constructor
  · intro hge hne
    obtain ⟨r, hr⟩ := merkle_root_of_ne_nil log hne
    exact ⟨r, hr, by rw [CheckpointWriter.maybe_checkpoint, if_pos hge, hr]⟩
  · intro hnot
    rw [CheckpointWriter.maybe_checkpoint]
    by_cases hge : log.length ≥ w.last_len + interval
    · have hnil : log = [] := by tauto
      subst hnil
      rw [if_pos hge]
      rfl
    · rw [if_neg hge]

/-- C7 witness: on a one-envelope log with `interval = 1` a checkpoint of
length 1 is emitted and `last_len` becomes 1. -/
theorem maybe_checkpoint_condition_witness :
    ∃ root, AppendLog.merkle_root [e1] = some root ∧
      CheckpointWriter.maybe_checkpoint ⟨0⟩ [e1] 1 = (some ⟨[e1].length, root⟩, ⟨[e1].length⟩) :=
  (maybe_checkpoint_condition ⟨0⟩ [e1] 1).1 (by decide) (List.cons_ne_nil e1 [])

/-- C5: `AppendLog::append` is atomic — on error the entry sequence is
exactly what it was before the call, and on success it is the old sequence
extended by exactly one envelope: the input with `header.prev` filled with
the previous tail's envelope hash when it was `None`. -/
theorem append_log_atomic (entries : List Envelope) (env : Envelope) (reg : ChannelRegistry) :
    ((∃ e, (AppendLog.append entries env reg).1 = .error e) →
      (AppendLog.append entries env reg).2 = entries) ∧
    ((AppendLog.append entries env reg).1 = .ok () →
      (AppendLog.append entries env reg).2 = entries ++ [fillPrev entries env]) := by
  simp only [AppendLog.append]
  cases validate_envelope (fillPrev entries env) reg
      ⟨entries.getLast?.map envelope_hash, entries.getLast?.map fun e => e.header.timestamp⟩ with
  | error e => simp
  | ok st => simp

/-- C5 witness: appending the first scenario envelope to the empty log
succeeds and extends it by exactly the prev-filled envelope. -/
theorem append_log_atomic_witness :
    (AppendLog.append [] e1 regC).2 = [] ++ [fillPrev [] e1] :=
  (append_log_atomic [] e1 regC).2 rfl

/-- A put whose digest file already exists returns the digest and performs
no write, leaving the store untouched. -/
theorem put_already_present (c : ContentAddressableStore) (p : Json)
    (hle : (Json.render p).length ≤ c.max_bytes)
    (hmem : c.files.contains (payloadHash (Json.render p))) :
    ContentAddressableStore.put c p = (.ok (payloadHash (Json.render p)), c, false) := by
  rw [ContentAddressableStore.put, if_neg (by omega), if_pos hmem]

/-- Once the digest file exists, any number of further puts of the same
payload return the digest and perform zero writes. -/
theorem putIter_no_writes (p : Json) :
    ∀ (n : Nat) (c : ContentAddressableStore),
      (Json.render p).length ≤ c.max_bytes →
      c.files.contains (payloadHash (Json.render p)) →
      ContentAddressableStore.putIter c p n =
        (List.replicate n (.ok (payloadHash (Json.render p))), c, 0)
  | 0, _, _, _ => rfl
  | n + 1, c, hle, hmem => by
    simp only [ContentAddressableStore.putIter, put_already_present c p hle hmem,
      putIter_no_writes p n c hle hmem, List.replicate_succ]
    simp

/-- C8: any number of `ContentAddressableStore::put` calls on a payload
within the byte ceiling all return the digest `H_payload(canonical(p))`
while performing at most one file write; an oversize payload makes every
call return `InvariantViolation` with no write and no state change. -/
theorem cas_put_idempotent (c : ContentAddressableStore) (p : Json) (n : Nat) :
    ((Json.render p).length ≤ c.max_bytes →
      (ContentAddressableStore.putIter c p n).1 =
        List.replicate n (.ok (payloadHash (Json.render p))) ∧
      (ContentAddressableStore.putIter c p n).2.2 ≤ 1) ∧
    ((Json.render p).length > c.max_bytes →
      ContentAddressableStore.putIter c p n =
        (List.replicate n (.error (.InvariantViolation
          (oversizeMsg (Json.render p).length c.max_bytes))), c, 0)) := by
  constructor
  · intro hle
    cases n with
    | zero => exact ⟨rfl, Nat.zero_le 1⟩
    | succ m =>
      by_cases hmem : c.files.contains (payloadHash (Json.render p))
      · rw [putIter_no_writes p (m + 1) c hle hmem]
        exact ⟨rfl, Nat.zero_le 1⟩
      · have hput : ContentAddressableStore.put c p =
            (.ok (payloadHash (Json.render p)),
              { c with files := c.files ++ [payloadHash (Json.render p)] }, true) := by
          rw [ContentAddressableStore.put, if_neg (by omega), if_neg hmem]
        have hmem' : (c.files ++ [payloadHash (Json.render p)]).contains
            (payloadHash (Json.render p)) := by simp
        have hrest := putIter_no_writes p m
          { c with files := c.files ++ [payloadHash (Json.render p)] } hle hmem'
        simp only [ContentAddressableStore.putIter, hput, hrest, List.replicate_succ]
        simp
  · intro hgt
    have hput : ContentAddressableStore.put c p =
        (.error (.InvariantViolation (oversizeMsg (Json.render p).length c.max_bytes)),
          c, false) := by
      rw [ContentAddressableStore.put, if_pos hgt]
    induction n with
    | zero => rfl
    | succ m ih =>
      simp only [ContentAddressableStore.putIter, hput, List.replicate_succ] at ih ⊢
      simp [ih]

/-- C8 witness: three puts of the same small payload on the empty store all
return its digest and perform at most one write. -/
theorem cas_put_idempotent_witness :
    (ContentAddressableStore.putIter casEx pJson 3).1 =
      List.replicate 3 (.ok (payloadHash (Json.render pJson))) ∧
    (ContentAddressableStore.putIter casEx pJson 3).2.2 ≤ 1 :=
  (cas_put_idempotent casEx pJson 3).1 (by decide)

/-- C2 counterexample: with broadcast depth 1 and the queue already full,
the next append returns `Backpressure`, yet the envelope of the failed
attempt **is** in the log: the log grows from one to two entries. -/
theorem invm_backpressure_claim_false :
    (InVmQueue.append q1ex e2).1 = .error .Backpressure ∧
    (InVmQueue.append q1ex e2).2.log = q1ex.log ++ [e2f] ∧
    q1ex.log.length + 1 = (InVmQueue.append q1ex e2).2.log.length :=
  ⟨rfl, rfl, rfl⟩

/-- C2 (amended): with the broadcast queue at its configured depth (as after
`depth` successful appends under a never-draining subscriber), an append
whose log validation succeeds returns a `Backpressure` error, but the
envelope has already been committed: the log is extended by the
prev-filled envelope before the publish step fails. -/
theorem invm_backpressure_commits (q : InVmQueue) (env : Envelope) (newlog : List Envelope)
    (hfull : q.queueLen ≥ q.queue_depth)
    (hok : AppendLog.append q.log env q.registry = (.ok (), newlog)) :
    InVmQueue.append q env = (.error .Backpressure, { q with log := newlog }) := by
  simp only [InVmQueue.append, hok, publishEvent, if_pos hfull]

/-- C2 witness: the amended statement at the concrete saturated queue. -/
theorem invm_backpressure_commits_witness :
    InVmQueue.append q1ex e2 = (.error .Backpressure, { q1ex with log := [e1, e2f] }) :=
  invm_backpressure_commits q1ex e2 [e1, e2f] (by decide) rfl

/-- `AppendLog::append` either fails leaving the entries untouched or
succeeds appending exactly the prev-filled envelope. -/
theorem append_log_shape (entries : List Envelope) (env : Envelope) (reg : ChannelRegistry) :
    (∃ e, AppendLog.append entries env reg = (.error e, entries)) ∨
    AppendLog.append entries env reg = (.ok (), entries ++ [fillPrev entries env]) := by
  simp only [AppendLog.append]
  cases validate_envelope (fillPrev entries env) reg
      ⟨entries.getLast?.map envelope_hash, entries.getLast?.map fun e => e.header.timestamp⟩ with
  | error e => exact Or.inl ⟨e, rfl⟩
  | ok st => exact Or.inr rfl

/-- Filling `prev` is idempotent. -/
theorem fillPrev_idem (entries : List Envelope) (env : Envelope) :
    fillPrev entries (fillPrev entries env) = fillPrev entries env := by
  obtain ⟨⟨ch, v, prev, bh, ts⟩, body, sigs, atts⟩ := env
  cases prev with
  | some w => simp [fillPrev]
  | none =>
    cases hph : entries.getLast?.map envelope_hash with
    | some w => simp [fillPrev, hph]
    | none => simp [fillPrev, hph]

/-- A `BrainstemLedger::append` call either leaves the log and the domain
index untouched, or extends the log by the prev-filled envelope and indexes
exactly that envelope at the previous log length. -/
theorem brainstem_append_log_index (b : BrainstemLedger) (env : Envelope) :
    ((BrainstemLedger.append b env).2.log = b.log ∧
      (BrainstemLedger.append b env).2.index = b.index) ∨
    ((BrainstemLedger.append b env).2.log = b.log ++ [fillPrev b.log env] ∧
      (BrainstemLedger.append b env).2.index =
        b.index.index_envelope b.log.length (fillPrev b.log env)) := by
  simp only [BrainstemLedger.append, BrainstemLedger.validation_error]
  split
  · exact Or.inl ⟨rfl, rfl⟩
  · split
    · exact Or.inl ⟨rfl, rfl⟩
    · split
      · exact Or.inl ⟨rfl, rfl⟩
      · split
        · exact Or.inl ⟨rfl, rfl⟩
        · split
          · exact Or.inl ⟨rfl, rfl⟩
          · split
            · exact Or.inl ⟨rfl, rfl⟩
            · rename_i u newlog heq
              rcases append_log_shape b.log (fillPrev b.log env) b.registry with ⟨e, hsh⟩ | hsh
              · rw [hsh] at heq
                simp at heq
              · rw [hsh] at heq
                have hnew : newlog = b.log ++ [fillPrev b.log env] := by
                  have hsnd := congrArg Prod.snd heq
                  simpa [fillPrev_idem] using hsnd.symm
                subst hnew
                refine Or.inr ⟨rfl, ?_⟩
                simp

/-- Pushing an offset under key `k` appends it to the offsets of `k` and
leaves every other key's offsets unchanged. -/
theorem alGet_alPush : ∀ (m : List (String × List Nat)) (k : String) (i : Nat) (k' : String),
    alGet (alPush m k i) k' = if k = k' then alGet m k' ++ [i] else alGet m k'
  | [], k, i, k' => by
    by_cases h : k = k' <;> simp [alGet, alPush, h]
  | kv :: t, k, i, k' => by
    by_cases h1 : kv.1 = k
    · by_cases h2 : k = k' <;> simp [alGet, alPush, h1, h2, beq_iff_eq]
    · by_cases h2 : kv.1 = k'
      · have h3 : ¬ k = k' := fun hk => h1 (hk ▸ h2)
        have h4 : ¬ k' = k := fun hk => h3 hk.symm
        simp [alGet, alPush, h1, h2, h3, h4, beq_iff_eq]
      · simp [alGet, alPush, h1, h2, beq_iff_eq, alGet_alPush t k i k']

/-- `offsetsSpec` over a concatenation splits at the boundary offset. -/
theorem offsetsSpec_append (p : Envelope → Bool) :
    ∀ (l1 l2 : List Envelope) (i : Nat),
      offsetsSpec p (l1 ++ l2) i = offsetsSpec p l1 i ++ offsetsSpec p l2 (i + l1.length)
  | [], l2, i => by simp [offsetsSpec]
  | e :: t, l2, i => by
    have harith : i + 1 + t.length = i + (t.length + 1) := by omega
    simp [offsetsSpec, offsetsSpec_append p t l2 (i + 1), harith]

/-- Single-step preservation of the §4.I index invariant across
`BrainstemLedger::append` (failed appends touch neither log nor index). -/
theorem indexCorrect_step (b : BrainstemLedger) (env : Envelope) (h : IndexCorrect b) :
    IndexCorrect (BrainstemLedger.append b env).2 := by
  obtain ⟨hc, hd⟩ := h
  rcases brainstem_append_log_index b env with ⟨hl, hi⟩ | ⟨hl, hi⟩
  · constructor
    · intro c
      rw [DomainIndex.offsets_for_channel, hi, hl]
      exact hc c
    · intro d
      rw [DomainIndex.offsets_for_domain, hi, hl]
      exact hd d
  · constructor
    · intro c
      simp only [DomainIndex.offsets_for_channel] at hc ⊢
      rw [hi, hl, offsetsSpec_append]
      simp only [DomainIndex.index_envelope]
      rw [alGet_alPush]
      by_cases hch : (fillPrev b.log env).header.channel = c <;>
        simp [hch, offsetsSpec, hc c, Nat.zero_add]
    · intro d
      simp only [DomainIndex.offsets_for_domain] at hd ⊢
      rw [hi, hl, offsetsSpec_append]
      simp only [DomainIndex.index_envelope]
      cases hdom : payloadDomain (fillPrev b.log env) with
      | none => simp [hdom, offsetsSpec, hd d]
      | some d0 =>
        simp only [alGet_alPush]
        by_cases hdd : d0 = d <;> simp [hdom, hdd, offsetsSpec, hd d, Nat.zero_add]

/-- C9: starting from any orchestrator state whose domain index is correct
for its log, after any sequence of `BrainstemLedger::append` calls
`offsets_for_channel c` is exactly the ascending list of log indices whose
envelope's `header.channel` equals `c`, and `offsets_for_domain d` exactly
the ascending list of log indices whose payload carries a string-typed
`domain` field equal to `d`. -/
theorem domain_index_correct (b : BrainstemLedger) (h : IndexCorrect b)
    (envs : List Envelope) : IndexCorrect (BrainstemLedger.appendAll b envs) := by
  induction envs generalizing b with
  | nil => exact h
  | cons env rest ih => exact ih (BrainstemLedger.append b env).2 (indexCorrect_step b env h)

set_option maxRecDepth 8000 in
/-- C9 witness: the invariant holds after the `alpha, beta, alpha` scenario
of the spec, and in particular `offsets_for_domain` returns `[0, 2]` for
`alpha` and `[1]` for `beta`. -/
theorem domain_index_correct_witness :
    IndexCorrect (BrainstemLedger.appendAll b0ex [eA, eB, eC]) ∧
    (BrainstemLedger.appendAll b0ex [eA, eB, eC]).index.offsets_for_domain ("alpha") = [0, 2] ∧
    (BrainstemLedger.appendAll b0ex [eA, eB, eC]).index.offsets_for_domain ("beta") = [1] :=
  ⟨domain_index_correct b0ex ⟨fun _ => rfl, fun _ => rfl⟩ [eA, eB, eC], rfl, rfl⟩

/-- `verify_with_expected` with a configured template builds the effective
handshake from the template, taking only the `presented` evidence from a
provided client handshake. -/
theorem verify_with_expected_eq (t : AttestationHandshake) (p : Option AttestationHandshake) :
    verify_with_expected (some t) p =
      (let h : AttestationHandshake :=
        ⟨t.nonce, t.expected_runtime_id, t.expected_statement_hash, presentedOf t p⟩
       if h.presented.isNone &&
          (h.expected_runtime_id.isSome || h.expected_statement_hash.isSome) then
         Except.error ("attestation required but not provided")
       else h.verify) := by
  cases p with
  | some p => rfl
  | none => cases t; rfl

/-- The post-merge admission check of `verify_with_expected` errors exactly
under the three failure conditions of `handshakeFails`. -/
theorem check_fails_iff (nonce : String) (rid : Option String) (esh : Option Nat)
    (pres : Option Attestation) :
    (∃ m, (if pres.isNone && (rid.isSome || esh.isSome) then
        (Except.error ("attestation required but not provided") : Except String Unit)
      else AttestationHandshake.verify ⟨nonce, rid, esh, pres⟩) = .error m) ↔
    handshakeFails rid esh pres := by
  cases pres with
  | none =>
    cases rid <;> cases esh <;>
      simp [AttestationHandshake.verify, handshakeFails]
  | some att =>
    cases esh with
    | none =>
      cases hst : att.statement with
      | Build ah bd =>
        cases rid <;> simp [AttestationHandshake.verify, handshakeFails, hst]
      | Policy bh ea =>
        cases rid <;> simp [AttestationHandshake.verify, handshakeFails, hst]
      | Custom lb ph =>
        cases rid <;> simp [AttestationHandshake.verify, handshakeFails, hst]
      | Runtime rid0 ph =>
        cases rid with
        | none => simp [AttestationHandshake.verify, handshakeFails, hst]
        | some r =>
          by_cases hr : rid0 = r <;>
            simp [AttestationHandshake.verify, handshakeFails, hst, hr]
    | some e =>
      by_cases hh : hash_attestation_statement att.statement = e
      · cases hst : att.statement with
        | Build ah bd =>
          rw [hst] at hh
          cases rid <;> simp [AttestationHandshake.verify, handshakeFails, hst, hh.symm]
        | Policy bh ea =>
          rw [hst] at hh
          cases rid <;> simp [AttestationHandshake.verify, handshakeFails, hst, hh.symm]
        | Custom lb ph =>
          rw [hst] at hh
          cases rid <;> simp [AttestationHandshake.verify, handshakeFails, hst, hh.symm]
        | Runtime rid0 ph =>
          rw [hst] at hh
          cases rid with
          | none => simp [AttestationHandshake.verify, handshakeFails, hst, hh.symm]
          | some r =>
            by_cases hr : rid0 = r <;>
              simp [AttestationHandshake.verify, handshakeFails, hst, hh.symm, hr]
      · simp [AttestationHandshake.verify, handshakeFails, hh, Ne.symm hh]

/-- C4: on a gRPC service configured with an expected handshake template,
an `append` RPC is denied with `PermissionDenied` — leaving the log
unmodified — exactly when the handshake fails verification: an expectation
is set and no attestation is presented, or the presented statement's hash
differs from `expected_statement_hash`, or the presented statement is a
`Runtime` attestation whose id differs from `expected_runtime_id`. -/
theorem grpc_attestation_enforcement (s : GrpcTransportService) (t : AttestationHandshake)
    (ht : s.attestation = some t) (p : Option AttestationHandshake) (env : Envelope) :
    ((∃ m, (s.append p env).1 = .error (.PermissionDenied m)) ∧
      (s.append p env).2.log = s.log) ↔
    handshakeFails t.expected_runtime_id t.expected_statement_hash (presentedOf t p) := by
  rw [← check_fails_iff t.nonce t.expected_runtime_id t.expected_statement_hash
    (presentedOf t p)]
  have hveq := verify_with_expected_eq t p
  simp only [GrpcTransportService.append, ht]
  rw [← hveq]
  cases hv : verify_with_expected (some t) p with
  | error m => simp [hv]
  | ok u =>
    simp only [hv]
    constructor
    · rintro ⟨⟨m, hm⟩, -⟩
      rcases append_log_shape s.log env s.registry with ⟨e, hsh⟩ | hsh <;> rw [hsh] at hm
      · simp at hm
      · cases hpub : publishEvent s.queueLen s.queue_depth <;> rw [hpub] at hm <;> simp at hm
    · rintro ⟨m, hm⟩
      simp at hm

/-- C4 witness: a client presenting no attestation against a template whose
`expected_runtime_id` is set is denied with `PermissionDenied` and the log
stays untouched. -/
theorem grpc_attestation_enforcement_witness :
    (∃ m, (GrpcTransportService.append sEx (some pEx) e1).1 = .error (.PermissionDenied m)) ∧
    (GrpcTransportService.append sEx (some pEx) e1).2.log = sEx.log :=
  (grpc_attestation_enforcement sEx tEx rfl (some pEx) e1).mpr
    (Or.inl ⟨rfl, Or.inl (by simp [tEx])⟩)

/-- C10: with a server-side expected template configured, the admission
decision — indeed the entire RPC outcome — depends only on the template
and the presented attestation: two client handshakes with the same
`presented` evidence (differing in nonce or client-side expectations) are
treated identically. -/
theorem grpc_admission_depends_only_on_presented (s : GrpcTransportService)
    (t : AttestationHandshake) (p1 p2 : AttestationHandshake) (env : Envelope)
    (ht : s.attestation = some t) (hp : p1.presented = p2.presented) :
    verify_with_expected s.attestation (some p1) =
      verify_with_expected s.attestation (some p2) ∧
    GrpcTransportService.append s (some p1) env =
      GrpcTransportService.append s (some p2) env := by
  have hv : verify_with_expected s.attestation (some p1) =
      verify_with_expected s.attestation (some p2) := by
    rw [ht]
    simp only [verify_with_expected, hp]
  exact ⟨hv, by simp only [GrpcTransportService.append, hv]⟩

/-- C10 witness: two concrete handshakes differing only in nonce and
client-side expectations produce identical append outcomes. -/
theorem grpc_admission_depends_only_on_presented_witness :
    GrpcTransportService.append sEx (some pEx) e1 =
      GrpcTransportService.append sEx (some pEx2) e1 :=
  (grpc_admission_depends_only_on_presented sEx tEx pEx pEx2 e1 rfl rfl).2

set_option maxRecDepth 8000 in
/-- C1: inclusion soundness fails on the code for a filled `prev`: the
second append succeeds and returns receipt `r2ex`, but folding the
receipt's proof into the receipt's `envelope_hash` (computed **before**
the orchestrator filled `header.prev`) does not reproduce the receipt's
Merkle root, while the hash of the envelope actually appended (`prev`
filled) does. -/
theorem receipt_inclusion_fails_for_filled_prev :
    (BrainstemLedger.append b1ex e2).1 = .ok r2ex ∧
    verifyInclusion r2ex.envelope_hash r2ex.merkle_proof r2ex.index r2ex.merkle_root = false ∧
    verifyInclusion (envelope_hash e2f) r2ex.merkle_proof r2ex.index r2ex.merkle_root = true :=
  ⟨rfl, rfl, rfl⟩

set_option maxRecDepth 8000 in
/-- C3: the alerting claim fails on the code: appending a payload carrying
the reserved `dynamic_code` key returns the `InvariantViolation` error and
leaves the log unchanged, but the orchestrator state — its alert list
included — is entirely unchanged, so no alert is appended; a `ChainBroken`
validation failure is likewise surfaced without an alert, although the
repo's own `emits_alert_on_validation_failure` test expects one. -/
theorem rejected_append_pushes_no_alert :
    BrainstemLedger.append b0ex envDyn =
      (.error (.InvariantViolation ("dynamic code payloads are not permitted")), b0ex) ∧
    (BrainstemLedger.append b0ex envCB).1 = .error (.Validation .ChainBroken) ∧
    (BrainstemLedger.append b0ex envCB).2.alerts = b0ex.alerts :=
  ⟨rfl, rfl, rfl⟩

end EaLedger
